import Mathlib

/-!
# URL-Shortener Service: verification of the allocation/lookup core

Shallow embedding of `src/main.go` (package `main`). The effectful parts are
modelled by explicit state passing:

* the Go `crypto/rand` byte source of `generateCode` is a finite list of byte
  values (`List Nat`, each < 256); exhausting the list models an unbounded wait
  on entropy and surfaces as `Option.none`;
* the sequence of candidate codes drawn by `saveURLMapping` (one call to
  `generateCode(9)` per attempt) is an oracle `codes : Nat → String`;
* MySQL is a list of rows with the `(domain, code)` uniqueness constraint;
  a non-duplicate failure of the `k`-th `INSERT` (connectivity etc.) is an
  injected fault `faults k = some e`; absence of a fault means the insert
  behaves according to the table contents (duplicate key error 1062 when the
  pair is present, success otherwise);
* Redis is an association list plus per-call failure flags (`getFails`,
  `setFails`); `redisClient == nil` is `cacheEnabled = false`;
* the in-memory fallback map `memStore.data` is an association list keyed by
  `domain ++ ":" ++ code`, exactly as the Go map is.
-/

namespace URLShortener

/-! ## Code generator (`generateCode`, main.go lines 310-334) -/

/-- The alphabet of `generateCode` (main.go line 312). -/
def charSet : String := "abcdefghijklmnopqrstuvwxyzABCDEFGHIJKLMNOPQRSTUVWXYZ0123456789"

/-- The alphabet as a list of characters; `charSetList.getD i d` models the Go
byte indexing `charSet[i]`. -/
def charSetList : List Char := charSet.toList

/-- The character class `[0-9A-Za-z]` of the spec (§4.1) and of the route
regex `^/[A-Za-z0-9]{9}$` (main.go line 39). -/
def isCodeChar (c : Char) : Bool :=
  ('0' ≤ c && c ≤ '9') || ('A' ≤ c && c ≤ 'Z') || ('a' ≤ c && c ≤ 'z')

/-- The inner redraw loop of `generateCode` (main.go lines 318-331): draw one
byte at a time from the entropy stream; accept a byte `b` iff
`b < byte(len(charSet))*4 = 248` and then select `charSet[b % 62]`, otherwise
discard the byte and redraw.  Returns the selected character and the rest of
the stream, or `none` if the stream runs out (the Go loop would keep waiting
for entropy). -/
def pickChar : List Nat → Option (Char × List Nat)
  | [] => none
  | b :: rest =>
    if b < charSetList.length * 4 then
      some (charSetList.getD (b % charSetList.length) ' ', rest)
    else
      pickChar rest

/-- The outer loop of `generateCode` (main.go lines 315-332): fill `length`
positions, each via the redraw loop. -/
def generateCodeAux : Nat → List Nat → Option (List Char × List Nat)
  | 0, bytes => some ([], bytes)
  | n + 1, bytes =>
    (pickChar bytes).bind fun cr =>
      (generateCodeAux n cr.2).map fun csr => (cr.1 :: csr.1, csr.2)

/-- `generateCode(length)` (main.go lines 310-334), the entropy stream made
explicit. -/
def generateCode (length : Nat) (bytes : List Nat) : Option (String × List Nat) :=
  (generateCodeAux length bytes).map (fun p => (String.mk p.1, p.2))

/-! ## Error taxonomy of the core -/

/-- Errors returned by `saveURLMapping`. -/
inductive SaveError where
  /-- memory mode: "could not generate a unique code after several attempts"
      (main.go line 229) -/
  | memExhausted
  /-- database mode: "failed to generate unique code (too many collisions)"
      (main.go line 259) -/
  | dbExhausted
  /-- database mode: a non-duplicate-key error of `db.Exec` propagated verbatim
      (main.go line 256) -/
  | dbFailure (e : String)
  deriving DecidableEq, Repr

/-- Errors returned by `getOriginalURL`. -/
inductive GetError where
  /-- `sql.ErrNoRows`: no mapping (main.go lines 272 and 298) -/
  | noRows
  /-- any other database error propagated verbatim (main.go line 298) -/
  | dbErr (e : String)
  deriving DecidableEq, Repr

/-! ## In-memory fallback store (`memStore`, main.go lines 31-36) -/

/-- The Go map `memStore.data : map[string]string`; inserted keys are distinct,
so an association list with first-match lookup has the same semantics. -/
abbrev MemStore := List (String × String)

/-- The key `domain + ":" + code` (main.go lines 218 and 267). -/
def memKey (domain code : String) : String := domain ++ ":" ++ code

/-- Memory-mode branch of `saveURLMapping` (main.go lines 214-229): up to
`fuel = 5` attempts, the `i`-th attempt drawing candidate `codes i`; insert on
absence, retry on presence.  Also returns the final map and the number of
attempts performed. -/
def saveMemLoop (domain url : String) (codes : Nat → String) :
    Nat → Nat → MemStore → (Except SaveError String) × MemStore × Nat
  | _, 0, m => (.error .memExhausted, m, 0)
  | i, fuel + 1, m =>
    let code := codes i
    let key := memKey domain code
    match m.lookup key with
    | some _ =>
      let r := saveMemLoop domain url codes (i + 1) fuel m
      (r.1, r.2.1, r.2.2 + 1)
    | none => (.ok code, (key, url) :: m, 1)

/-- `saveURLMapping` in memory mode (`useMemory = true`). -/
def saveURLMappingMem (domain url : String) (codes : Nat → String) (m : MemStore) :
    (Except SaveError String) × MemStore × Nat :=
  saveMemLoop domain url codes 0 5 m

/-- `getOriginalURL` in memory mode (main.go lines 265-274): pure lookup; the
store is returned unchanged (the branch only reads the map). -/
def getOriginalURLMem (m : MemStore) (domain code : String) :
    (Except GetError String) × MemStore :=
  match m.lookup (memKey domain code) with
  | some orig => (.ok orig, m)
  | none => (.error .noRows, m)

/-! ## Database and cache (database mode) -/

/-- The `shortened_urls` table: rows `(domain, code, original_url)`; the
surrogate `id` plays no part in the logic.  The `UNIQUE KEY (domain, code)`
constraint is enforced by `saveDBLoop` below. -/
abbrev DB := List (String × String × String)

/-- Does a row with this `(domain, code)` pair exist (the uniqueness check the
`UNIQUE KEY unique_domain_code` constraint performs on insert)? -/
def dbHas (db : DB) (domain code : String) : Bool :=
  db.any (fun r => r.1 == domain && r.2.1 == code)

/-- `SELECT original_url FROM shortened_urls WHERE domain = ? AND code = ?`
(main.go lines 293-296). -/
def dbGet (db : DB) (domain code : String) : Option String :=
  (db.find? (fun r => r.1 == domain && r.2.1 == code)).map (fun r => r.2.2)

/-- The Redis cache contents: key/value pairs, first match wins. -/
abbrev Cache := List (String × String)

/-- `fmt.Sprintf("short:%s:%s", domain, code)` (main.go lines 243 and 278). -/
def cacheKey (domain code : String) : String :=
  "short:" ++ domain ++ ":" ++ code

/-- A Redis `SET` that succeeds: later entries shadow earlier ones under
first-match lookup, as assignment does. -/
def cacheSet (cache : Cache) (key value : String) : Cache :=
  (key, value) :: cache

/-- A Redis `GET` against the cache contents. -/
def cacheLookup (cache : Cache) (key : String) : Option String :=
  cache.lookup key

/-- Database-mode branch of `saveURLMapping` (main.go lines 233-259): up to
`fuel = 5` attempts; the `i`-th attempt draws `codes i` and runs the `INSERT`.
`faults i = some e` injects a non-duplicate-key failure `e` for that insert
(returned verbatim, main.go line 256); without a fault the insert collides
exactly when `(domain, code)` is already present (MySQL error 1062, retried,
main.go lines 252-254) and otherwise succeeds, after which the cache is
populated best-effort (`cacheEnabled`, `setFails`; main.go lines 242-248).
Returns the result, final table, final cache, and attempts performed. -/
def saveDBLoop (domain url : String) (codes : Nat → String)
    (faults : Nat → Option String) (cacheEnabled setFails : Bool)
    (db : DB) (cache : Cache) :
    Nat → Nat → (Except SaveError String) × DB × Cache × Nat
  | _, 0 => (.error .dbExhausted, db, cache, 0)
  | i, fuel + 1 =>
    let code := codes i
    match faults i with
    | some e => (.error (.dbFailure e), db, cache, 1)
    | none =>
      if dbHas db domain code then
        let r := saveDBLoop domain url codes faults cacheEnabled setFails db cache (i + 1) fuel
        (r.1, r.2.1, r.2.2.1, r.2.2.2 + 1)
      else
        let db' := db ++ [(domain, code, url)]
        let cache' :=
          if cacheEnabled && !setFails then cacheSet cache (cacheKey domain code) url
          else cache
        (.ok code, db', cache', 1)

/-- `saveURLMapping` in database mode (`useMemory = false`). -/
def saveURLMappingDB (domain url : String) (codes : Nat → String)
    (faults : Nat → Option String) (cacheEnabled setFails : Bool)
    (db : DB) (cache : Cache) :
    (Except SaveError String) × DB × Cache × Nat :=
  saveDBLoop domain url codes faults cacheEnabled setFails db cache 0 5

/-- `getOriginalURL` in database mode (main.go lines 277-307): consult the
cache when enabled (`getFails` injects a non-`redis.Nil` error, which, like a
miss, falls through to the database); then query the table (`dbFault` injects
a non-`ErrNoRows` failure); on a successful read, best-effort repopulate the
cache.  Returns the result, the (unread, hence unchanged) table, and the final
cache. -/
def getOriginalURLDB (cacheEnabled getFails setFails : Bool)
    (dbFault : Option String) (db : DB) (cache : Cache) (domain code : String) :
    (Except GetError String) × DB × Cache :=
  let key := cacheKey domain code
  let hit : Option String :=
    if cacheEnabled && !getFails then cacheLookup cache key else none
  match hit with
  | some v => (.ok v, db, cache)
  | none =>
    match dbFault with
    | some e => (.error (.dbErr e), db, cache)
    | none =>
      match dbGet db domain code with
      | none => (.error .noRows, db, cache)
      | some originalURL =>
        let cache' :=
          if cacheEnabled && !setFails then cacheSet cache key originalURL
          else cache
        (.ok originalURL, db, cache')

/-! ## HTTP-boundary validation (`handleNewURL`, `handleRedirect`) -/

/-- `strings.ToLower` (ASCII range; Go's Unicode case mapping agrees with
`Char.toLower` on ASCII, which is all the claims exercise). -/
def toLowerStr (s : String) : String := String.mk (s.data.map Char.toLower)

/-- `strings.TrimSpace`: drop whitespace from both ends. -/
def trimStr (s : String) : String :=
  String.mk (((s.data.dropWhile Char.isWhitespace).reverse.dropWhile
    Char.isWhitespace).reverse)

/-- `strings.ToLower(strings.TrimSpace(domain))` (main.go line 142). -/
def normalizeDomain (s : String) : String := toLowerStr (trimStr s)

/-- The validation of `handleNewURL` (main.go lines 141-146): normalize the
domain; reject if domain or url is empty; otherwise the pair is passed on to
`saveURLMapping`. -/
def newURLValidate (domain url : String) : Option (String × String) :=
  let d := normalizeDomain domain
  if d = "" || url = "" then none else some (d, url)

/-- The route regex `^/[A-Za-z0-9]{9}$` (main.go line 39). -/
def matchesShortCodePattern (path : String) : Bool :=
  match path.data with
  | '/' :: rest => rest.length == 9 && rest.all isCodeChar
  | _ => false

/-- `path[1:]`: the code part of a matching path (main.go line 186). -/
def pathCode (path : String) : String := String.mk (path.data.drop 1)

/-- Domain extraction of `handleRedirect` (main.go lines 188-191):
`strings.ToLower(r.Host)`, then everything before the first `:` (port
stripped via `strings.Index`). -/
def hostToDomain (host : String) : String :=
  String.mk ((host.data.map Char.toLower).takeWhile (fun ch => ch ≠ ':'))

/-- The arguments `handleRedirect` passes to `getOriginalURL` (main.go lines
174-194), or `none` when the request is rejected before any lookup (wrong
method, or path failing the short-code regex). -/
def redirectLookupArgs (method path host : String) : Option (String × String) :=
  if method ≠ "GET" then none
  else if !matchesShortCodePattern path then none
  else some (hostToDomain host, pathCode path)

/-! ## Lemmas about the code generator -/

theorem charSetList_length : charSetList.length = 62 := rfl

theorem mem_charSetList_isCodeChar : ∀ c ∈ charSetList, isCodeChar c = true := by decide

theorem pickChar_accept {b : Nat} (rest : List Nat) (hb : b < 248) :
    pickChar (b :: rest) = some (charSetList.getD (b % 62) ' ', rest) := by
  simp only [pickChar, charSetList_length]
  rw [if_pos (by omega)]

theorem pickChar_reject {b : Nat} (rest : List Nat) (hb : 248 ≤ b) :
    pickChar (b :: rest) = pickChar rest := by
  simp only [pickChar, charSetList_length]
  rw [if_neg (by omega)]

theorem charSetList_getD_mem (i : Nat) :
    charSetList.getD (i % 62) ' ' ∈ charSetList := by
  have hlt : i % 62 < charSetList.length := by
    rw [charSetList_length]; omega
  rw [List.getD_eq_getElem?_getD, List.getElem?_eq_getElem hlt, Option.getD_some]
  exact List.getElem_mem hlt

theorem pickChar_mem : ∀ (bytes : List Nat) {c : Char} {rest : List Nat},
    pickChar bytes = some (c, rest) → c ∈ charSetList := by
  intro bytes
  induction bytes with
  | nil => intro c rest h; simp [pickChar] at h
  | cons b bs ih =>
    intro c rest h
    simp only [pickChar, charSetList_length] at h
    by_cases hb : b < 62 * 4
    · rw [if_pos hb] at h
      simp only [Option.some.injEq, Prod.mk.injEq] at h
      obtain ⟨rfl, -⟩ := h
      exact charSetList_getD_mem b
    · rw [if_neg hb] at h
      exact ih h

theorem generateCodeAux_spec : ∀ (n : Nat) (bytes : List Nat) {cs : List Char}
    {rest : List Nat}, generateCodeAux n bytes = some (cs, rest) →
    cs.length = n ∧ ∀ c ∈ cs, c ∈ charSetList := by
  intro n
  induction n with
  | zero =>
    intro bytes cs rest h
    simp only [generateCodeAux, Option.some.injEq, Prod.mk.injEq] at h
    obtain ⟨rfl, rfl⟩ := h
    simp
  | succ n ih =>
    intro bytes cs rest h
    simp only [generateCodeAux, Option.bind_eq_some, Option.map_eq_some'] at h
    obtain ⟨⟨c, rest1⟩, hp, ⟨cs2, rest2⟩, hg, h⟩ := h
    obtain ⟨rfl, rfl⟩ := Prod.mk.injEq .. ▸ h
    obtain ⟨hlen, hmem⟩ := ih rest1 hg
    refine ⟨by simp [hlen], ?_⟩
    intro x hx
    rcases List.mem_cons.mp hx with rfl | hx2
    · exact pickChar_mem bytes hp
    · exact hmem x hx2

theorem generateCode_spec {n : Nat} {bytes : List Nat} {s : String} {rest : List Nat}
    (h : generateCode n bytes = some (s, rest)) :
    s.length = n ∧ ∀ c ∈ s.data, c ∈ charSetList := by
  simp only [generateCode, Option.map_eq_some'] at h
  obtain ⟨⟨cs, r⟩, hg, h⟩ := h
  cases h
  exact generateCodeAux_spec n bytes hg

/-! ## Lemmas about the memory-mode save loop -/

theorem saveMemLoop_ok {domain url : String} {codes : Nat → String} :
    ∀ (fuel i : Nat) (m : MemStore) {c : String} {m' : MemStore} {n : Nat},
    saveMemLoop domain url codes i fuel m = (.ok c, m', n) →
    m.lookup (memKey domain c) = none ∧ m' = (memKey domain c, url) :: m ∧
      ∃ j, j < fuel ∧ c = codes (i + j) := by
  intro fuel
  induction fuel with
  | zero => intro i m c m' n h; simp [saveMemLoop] at h
  | succ fuel ih =>
    intro i m c m' n h
    simp only [saveMemLoop] at h
    split at h
    · simp only [Prod.mk.injEq] at h
      obtain ⟨h1, h2, h3⟩ := h
      have hr : saveMemLoop domain url codes (i + 1) fuel m =
          (Except.ok c, m', (saveMemLoop domain url codes (i + 1) fuel m).2.2) := by
        rw [← h1, ← h2]
      obtain ⟨hnone, hm', j, hj, hc⟩ := ih (i + 1) m hr
      refine ⟨hnone, hm', j + 1, by omega, ?_⟩
      rw [hc]; congr 1; omega
    · rename_i hk
      simp only [Prod.mk.injEq, Except.ok.injEq] at h
      obtain ⟨h1, h2, h3⟩ := h
      subst h1
      exact ⟨hk, h2.symm, 0, by omega, by simp⟩

theorem saveMemLoop_error {domain url : String} {codes : Nat → String} :
    ∀ (fuel i : Nat) (m : MemStore) {e : SaveError} {m' : MemStore} {n : Nat},
    saveMemLoop domain url codes i fuel m = (.error e, m', n) → m' = m := by
  intro fuel
  induction fuel with
  | zero =>
    intro i m e m' n h
    simp only [saveMemLoop, Prod.mk.injEq] at h
    exact h.2.1.symm
  | succ fuel ih =>
    intro i m e m' n h
    simp only [saveMemLoop] at h
    split at h
    · simp only [Prod.mk.injEq] at h
      obtain ⟨h1, h2, h3⟩ := h
      have hr : saveMemLoop domain url codes (i + 1) fuel m =
          (Except.error e, m', (saveMemLoop domain url codes (i + 1) fuel m).2.2) := by
        rw [← h1, ← h2]
      exact ih (i + 1) m hr
    · simp at h

theorem saveMemLoop_allCollide {domain url : String} {codes : Nat → String} :
    ∀ (fuel i : Nat) (m : MemStore),
    (∀ j, j < fuel → (m.lookup (memKey domain (codes (i + j)))).isSome) →
    saveMemLoop domain url codes i fuel m = (.error .memExhausted, m, fuel) := by
  intro fuel
  induction fuel with
  | zero => intro i m _; rfl
  | succ fuel ih =>
    intro i m hall
    have h0 : (m.lookup (memKey domain (codes i))).isSome := by
      have := hall 0 (by omega)
      simpa using this
    obtain ⟨v, hv⟩ := Option.isSome_iff_exists.mp h0
    have hrec := ih (i + 1) m (fun j hj => by
      have := hall (j + 1) (by omega)
      have harith : i + (j + 1) = i + 1 + j := by omega
      rwa [harith] at this)
    simp only [saveMemLoop, hv, hrec]

theorem saveMemLoop_count_le {domain url : String} {codes : Nat → String} :
    ∀ (fuel i : Nat) (m : MemStore),
    (saveMemLoop domain url codes i fuel m).2.2 ≤ fuel := by
  intro fuel
  induction fuel with
  | zero => intro i m; simp [saveMemLoop]
  | succ fuel ih =>
    intro i m
    simp only [saveMemLoop]
    split
    · simpa using ih (i + 1) m
    · simp

theorem saveMemLoop_preserve {domain url : String} {codes : Nat → String}
    (fuel i : Nat) (m : MemStore) (k : String) (v : String)
    (hk : m.lookup k = some v) :
    (saveMemLoop domain url codes i fuel m).2.1.lookup k = some v := by
  rcases hr : saveMemLoop domain url codes i fuel m with ⟨res, m', n⟩
  cases res with
  | error e =>
    have hm := saveMemLoop_error fuel i m hr
    show m'.lookup k = some v
    rw [hm]; exact hk
  | ok c =>
    obtain ⟨hnone, hm', -⟩ := saveMemLoop_ok fuel i m hr
    show m'.lookup k = some v
    have hne : (k == memKey domain c) = false := by
      refine beq_eq_false_iff_ne.mpr ?_
      intro hkey
      rw [hkey, hnone] at hk
      exact Option.noConfusion hk
    rw [hm', List.lookup_cons, hne]
    exact hk

/-! ## Lemmas about the database-mode save loop -/

theorem saveDBLoop_ok {domain url : String} {codes : Nat → String}
    {faults : Nat → Option String} {ce sf : Bool} {db : DB} {cache : Cache} :
    ∀ (fuel i : Nat) {c : String} {db' : DB} {cache' : Cache} {n : Nat},
    saveDBLoop domain url codes faults ce sf db cache i fuel = (.ok c, db', cache', n) →
    dbHas db domain c = false ∧ db' = db ++ [(domain, c, url)] ∧
      cache' = (if ce && !sf then cacheSet cache (cacheKey domain c) url else cache) ∧
      ∃ j, j < fuel ∧ c = codes (i + j) ∧ faults (i + j) = none := by
  intro fuel
  induction fuel with
  | zero => intro i c db' cache' n h; simp [saveDBLoop] at h
  | succ fuel ih =>
    intro i c db' cache' n h
    simp only [saveDBLoop] at h
    split at h
    · simp at h
    · rename_i hf
      split at h
      · rename_i hhas
        simp only [Prod.mk.injEq] at h
        obtain ⟨h1, h2, h3, h4⟩ := h
        have hr : saveDBLoop domain url codes faults ce sf db cache (i + 1) fuel =
            (Except.ok c, db', cache',
              (saveDBLoop domain url codes faults ce sf db cache (i + 1) fuel).2.2.2) := by
          rw [← h1, ← h2, ← h3]
        obtain ⟨ha, hb, hc, j, hj, hcj, hfj⟩ := ih (i + 1) hr
        refine ⟨ha, hb, hc, j + 1, by omega, ?_, ?_⟩
        · rw [hcj]; congr 1; omega
        · rw [← hfj]; congr 1; omega
      · rename_i hhas
        simp only [Prod.mk.injEq, Except.ok.injEq] at h
        obtain ⟨h1, h2, h3, h4⟩ := h
        subst h1
        exact ⟨by simpa using hhas, h2.symm, h3.symm, 0, by omega, by simp, by simpa using hf⟩

theorem saveDBLoop_error {domain url : String} {codes : Nat → String}
    {faults : Nat → Option String} {ce sf : Bool} {db : DB} {cache : Cache} :
    ∀ (fuel i : Nat) {e : SaveError} {db' : DB} {cache' : Cache} {n : Nat},
    saveDBLoop domain url codes faults ce sf db cache i fuel = (.error e, db', cache', n) →
    db' = db ∧ cache' = cache := by
  intro fuel
  induction fuel with
  | zero =>
    intro i e db' cache' n h
    simp only [saveDBLoop, Prod.mk.injEq] at h
    exact ⟨h.2.1.symm, h.2.2.1.symm⟩
  | succ fuel ih =>
    intro i e db' cache' n h
    simp only [saveDBLoop] at h
    split at h
    · simp only [Prod.mk.injEq] at h
      exact ⟨h.2.1.symm, h.2.2.1.symm⟩
    · split at h
      · simp only [Prod.mk.injEq] at h
        obtain ⟨h1, h2, h3, h4⟩ := h
        have hr : saveDBLoop domain url codes faults ce sf db cache (i + 1) fuel =
            (Except.error e, db', cache',
              (saveDBLoop domain url codes faults ce sf db cache (i + 1) fuel).2.2.2) := by
          rw [← h1, ← h2, ← h3]
        exact ih (i + 1) hr
      · simp at h

theorem saveDBLoop_fault {domain url : String} {codes : Nat → String}
    {faults : Nat → Option String} {ce sf : Bool} {db : DB} {cache : Cache}
    {e : String} :
    ∀ (k fuel i : Nat), k < fuel →
    (∀ j, j < k → faults (i + j) = none ∧ dbHas db domain (codes (i + j)) = true) →
    faults (i + k) = some e →
    saveDBLoop domain url codes faults ce sf db cache i fuel =
      (.error (.dbFailure e), db, cache, k + 1) := by
  intro k
  induction k with
  | zero =>
    intro fuel i hk hpre hf
    cases fuel with
    | zero => omega
    | succ fuel =>
      have hf0 : faults i = some e := by simpa using hf
      simp only [saveDBLoop, hf0]
  | succ k ih =>
    intro fuel i hk hpre hf
    cases fuel with
    | zero => omega
    | succ fuel =>
      have h0 := hpre 0 (by omega)
      simp only [Nat.add_zero] at h0
      obtain ⟨hf0, hd0⟩ := h0
      have hrec := ih fuel (i + 1) (by omega)
        (fun j hj => by
          have hp := hpre (j + 1) (by omega)
          have harith : i + (j + 1) = i + 1 + j := by omega
          rwa [harith] at hp)
        (by
          have harith : i + (k + 1) = i + 1 + k := by omega
          rwa [harith] at hf)
      simp only [saveDBLoop, hf0, hd0, if_true, hrec]

theorem saveDBLoop_allCollide {domain url : String} {codes : Nat → String}
    {faults : Nat → Option String} {ce sf : Bool} {db : DB} {cache : Cache} :
    ∀ (fuel i : Nat),
    (∀ j, j < fuel → faults (i + j) = none ∧ dbHas db domain (codes (i + j)) = true) →
    saveDBLoop domain url codes faults ce sf db cache i fuel =
      (.error .dbExhausted, db, cache, fuel) := by
  intro fuel
  induction fuel with
  | zero => intro i _; rfl
  | succ fuel ih =>
    intro i hall
    have h0 := hall 0 (by omega)
    simp only [Nat.add_zero] at h0
    obtain ⟨hf0, hd0⟩ := h0
    have hrec := ih (i + 1) (fun j hj => by
      have hp := hall (j + 1) (by omega)
      have harith : i + (j + 1) = i + 1 + j := by omega
      rwa [harith] at hp)
    simp only [saveDBLoop, hf0, hd0, if_true, hrec]

theorem saveDBLoop_count_le {domain url : String} {codes : Nat → String}
    {faults : Nat → Option String} {ce sf : Bool} {db : DB} {cache : Cache} :
    ∀ (fuel i : Nat),
    (saveDBLoop domain url codes faults ce sf db cache i fuel).2.2.2 ≤ fuel := by
  intro fuel
  induction fuel with
  | zero => intro i; simp [saveDBLoop]
  | succ fuel ih =>
    intro i
    simp only [saveDBLoop]
    split
    · simp
    · split
      · simpa using ih (i + 1)
      · simp

theorem saveDBLoop_cacheIndep {domain url : String} {codes : Nat → String}
    {faults : Nat → Option String} {db : DB} {cache : Cache} :
    ∀ (fuel i : Nat) (ce sf ce2 sf2 : Bool),
    (saveDBLoop domain url codes faults ce sf db cache i fuel).1 =
      (saveDBLoop domain url codes faults ce2 sf2 db cache i fuel).1 ∧
    (saveDBLoop domain url codes faults ce sf db cache i fuel).2.1 =
      (saveDBLoop domain url codes faults ce2 sf2 db cache i fuel).2.1 ∧
    (saveDBLoop domain url codes faults ce sf db cache i fuel).2.2.2 =
      (saveDBLoop domain url codes faults ce2 sf2 db cache i fuel).2.2.2 := by
  intro fuel
  induction fuel with
  | zero => intro i ce sf ce2 sf2; simp [saveDBLoop]
  | succ fuel ih =>
    intro i ce sf ce2 sf2
    cases hf : faults i with
    | some e => simp [saveDBLoop, hf]
    | none =>
      cases hd : dbHas db domain (codes i) with
      | true =>
        obtain ⟨h1, h2, h3⟩ := ih (i + 1) ce sf ce2 sf2
        simp only [saveDBLoop, hf, hd, if_true]
        exact ⟨h1, h2, by rw [h3]⟩
      | false => simp [saveDBLoop, hf, hd]

theorem saveDBLoop_failingCache {domain url : String} {codes : Nat → String}
    {faults : Nat → Option String} {db : DB} {cache : Cache} :
    ∀ (fuel i : Nat) (sf2 : Bool),
    saveDBLoop domain url codes faults true true db cache i fuel =
      saveDBLoop domain url codes faults false sf2 db cache i fuel := by
  intro fuel
  induction fuel with
  | zero => intro i sf2; rfl
  | succ fuel ih =>
    intro i sf2
    cases hf : faults i with
    | some e => simp [saveDBLoop, hf]
    | none =>
      cases hd : dbHas db domain (codes i) with
      | true => simp only [saveDBLoop, hf, hd, if_true, ih (i + 1) sf2]
      | false => simp [saveDBLoop, hf, hd]

/-! ## Lemmas about lookup -/

theorem dbHas_false_dbGet_none {db : DB} {d c : String} (h : dbHas db d c = false) :
    dbGet db d c = none := by
  simp only [dbHas, List.any_eq_false] at h
  simp only [dbGet, Option.map_eq_none']
  rw [List.find?_eq_none]
  exact h

theorem dbGet_append_self {db : DB} {d c u : String} (h : dbHas db d c = false) :
    dbGet (db ++ [(d, c, u)]) d c = some u := by
  simp only [dbHas, List.any_eq_false] at h
  have h1 : db.find? (fun r => r.1 == d && r.2.1 == c) = none :=
    List.find?_eq_none.mpr h
  simp [dbGet, List.find?_append, h1, List.find?_cons_of_pos]

theorem dbGet_append_mono {db l : DB} {d c v : String} (h : dbGet db d c = some v) :
    dbGet (db ++ l) d c = some v := by
  simp only [dbGet, Option.map_eq_some'] at h ⊢
  obtain ⟨r, hr, hv⟩ := h
  refine ⟨r, ?_, hv⟩
  rw [List.find?_append, hr]
  rfl

theorem cacheLookup_set_self {cache : Cache} {k v : String} :
    cacheLookup (cacheSet cache k v) k = some v := by
  simp [cacheLookup, cacheSet]

theorem getOriginalURLDB_db_unchanged (ce gf sf : Bool) (f : Option String)
    (db : DB) (cache : Cache) (d c : String) :
    (getOriginalURLDB ce gf sf f db cache d c).2.1 = db := by
  simp only [getOriginalURLDB]
  split
  · rfl
  · split
    · rfl
    · split
      · rfl
      · rfl

theorem getOriginalURLDB_miss (ce gf sf : Bool) (db : DB) (cache : Cache)
    (d c : String) (hcache : cacheLookup cache (cacheKey d c) = none)
    (hdb : dbGet db d c = none) :
    getOriginalURLDB ce gf sf none db cache d c = (.error .noRows, db, cache) := by
  have hhit : (if ce && !gf then cacheLookup cache (cacheKey d c) else none) = none := by
    split <;> simp [hcache]
  simp only [getOriginalURLDB, hhit, hdb]

theorem getOriginalURLDB_hit_or_store (ce gf sf : Bool) (db : DB) (cache : Cache)
    (d c u : String)
    (hcache : ∀ v, cacheLookup cache (cacheKey d c) = some v → v = u)
    (hdb : dbGet db d c = some u) :
    (getOriginalURLDB ce gf sf none db cache d c).1 = .ok u := by
  simp only [getOriginalURLDB]
  cases hhit : (if ce && !gf then cacheLookup cache (cacheKey d c) else none) with
  | some v =>
    have hv : cacheLookup cache (cacheKey d c) = some v := by
      by_cases hc : (ce && !gf) = true
      · rwa [if_pos hc] at hhit
      · rw [if_neg hc] at hhit; exact Option.noConfusion hhit
    rw [hcache v hv]
  | none => simp [hdb]

/-! ## The claims -/

/-- **C2**: In `generateCode`, a drawn byte `b` (< 256) is accepted exactly when
`b < 248 = floor(256/62)*62`, an accepted byte yields `charSet[b mod 62]`, and
each of the 62 alphabet characters corresponds to exactly 4 of the 248 accepted
byte values, so a uniformly distributed accepted byte selects a uniformly
distributed character (no modulo bias). -/
theorem c2_unbiased_rejection_sampling :
    (248 : Nat) = 256 / 62 * 62
    ∧ (∀ (b : Nat) (rest : List Nat), b < 248 →
        pickChar (b :: rest) = some (charSetList.getD (b % 62) ' ', rest))
    ∧ (∀ (b : Nat) (rest : List Nat), 248 ≤ b → b < 256 →
        pickChar (b :: rest) = pickChar rest)
    ∧ charSetList.length = 62
    ∧ (∀ c ∈ charSetList,
        ((Finset.range 248).filter
          (fun b => charSetList.getD (b % 62) ' ' = c)).card = 4) := by
  refine ⟨by decide, ?_, ?_, charSetList_length, by decide⟩
  · intro b rest hb
    exact pickChar_accept rest hb
  · intro b rest hb _
    exact pickChar_reject rest hb

/-- Witness for C2 at concrete bytes: byte 5 is accepted and selects
`charSet[5] = 'f'`; byte 250 is rejected and redrawn; character `'a'` has
exactly 4 accepted preimages. -/
theorem c2_unbiased_rejection_sampling_witness :
    pickChar [5, 7] = some (charSetList.getD (5 % 62) ' ', [7])
    ∧ pickChar [250, 7] = pickChar [7]
    ∧ ((Finset.range 248).filter
        (fun b => charSetList.getD (b % 62) ' ' = 'a')).card = 4 :=
  ⟨c2_unbiased_rejection_sampling.2.1 5 [7] (by decide),
   c2_unbiased_rejection_sampling.2.2.1 250 [7] (by decide) (by decide),
   c2_unbiased_rejection_sampling.2.2.2.2 'a' (by decide)⟩

/-- **C8**: For every length `n`, a completed `generateCode n` run returns a
string of exactly `n` characters of the alphabet `[0-9A-Za-z]`; consequently,
whenever `saveURLMapping` succeeds (in either mode) with codes drawn from
`generateCode 9`, the returned code has exactly 9 such characters. -/
theorem c8_code_shape :
    (∀ (n : Nat) (bytes rest : List Nat) (s : String),
      generateCode n bytes = some (s, rest) →
      s.length = n ∧ ∀ c ∈ s.data, isCodeChar c = true)
    ∧ (∀ (d url : String) (codes : Nat → String) (m : MemStore) (c : String)
        (m' : MemStore) (n : Nat),
      (∀ i, ∃ bytes rest, generateCode 9 bytes = some (codes i, rest)) →
      saveURLMappingMem d url codes m = (.ok c, m', n) →
      c.length = 9 ∧ ∀ ch ∈ c.data, isCodeChar ch = true)
    ∧ (∀ (d url : String) (codes : Nat → String) (faults : Nat → Option String)
        (ce sf : Bool) (db : DB) (cache : Cache) (c : String) (db' : DB)
        (cache' : Cache) (n : Nat),
      (∀ i, ∃ bytes rest, generateCode 9 bytes = some (codes i, rest)) →
      saveURLMappingDB d url codes faults ce sf db cache = (.ok c, db', cache', n) →
      c.length = 9 ∧ ∀ ch ∈ c.data, isCodeChar ch = true) := by
  have base : ∀ (n : Nat) (bytes rest : List Nat) (s : String),
      generateCode n bytes = some (s, rest) →
      s.length = n ∧ ∀ c ∈ s.data, isCodeChar c = true := by
    intro n bytes rest s h
    obtain ⟨hlen, hmem⟩ := generateCode_spec h
    exact ⟨hlen, fun c hc => mem_charSetList_isCodeChar c (hmem c hc)⟩
  refine ⟨base, ?_, ?_⟩
  · intro d url codes m c m' n hgen h
    obtain ⟨-, -, j, -, hc⟩ := saveMemLoop_ok 5 0 m h
    obtain ⟨bytes, rest, hb⟩ := hgen (0 + j)
    rw [← hc] at hb
    exact base 9 bytes rest c hb
  · intro d url codes faults ce sf db cache c db' cache' n hgen h
    obtain ⟨-, -, -, j, -, hc, -⟩ := saveDBLoop_ok 5 0 h
    obtain ⟨bytes, rest, hb⟩ := hgen (0 + j)
    rw [← hc] at hb
    exact base 9 bytes rest c hb

/-- Witness for C8: `generateCode 9` on bytes `0..8` yields the 9-character
code `"abcdefghi"`, and a memory-mode and a database-mode save succeeding with
that code return a 9-character alphabet code. -/
theorem c8_code_shape_witness :
    ("abcdefghi".length = 9 ∧ ∀ c ∈ "abcdefghi".data, isCodeChar c = true)
    ∧ ("abcdefghi".length = 9 ∧ ∀ c ∈ "abcdefghi".data, isCodeChar c = true) :=
  ⟨c8_code_shape.1 9 [0, 1, 2, 3, 4, 5, 6, 7, 8] [] "abcdefghi" (by decide),
   c8_code_shape.2.1 "d" "u" (fun _ => "abcdefghi") [] "abcdefghi"
     [("d:abcdefghi", "u")] 1
     (fun _ => ⟨[0, 1, 2, 3, 4, 5, 6, 7, 8], [],
       by show generateCode 9 [0, 1, 2, 3, 4, 5, 6, 7, 8] = some ("abcdefghi", []); decide⟩)
     rfl⟩

/-- **C5, as stated, is false**: on the lookup path `handleRedirect` only
lower-cases the Host and strips a port suffix; it does not trim surrounding
whitespace and does not reject an empty domain.  With an empty Host header and
the valid path `/abcdefghi`, the empty domain is passed to `getOriginalURL`;
with Host `" EXAMPLE.COM "`, the untrimmed domain `" example.com "` is passed. -/
theorem c5_counterexample :
    redirectLookupArgs "GET" "/abcdefghi" "" = some ("", "abcdefghi")
    ∧ redirectLookupArgs "GET" "/abcdefghi" " EXAMPLE.COM " =
        some (" example.com ", "abcdefghi") := by
  constructor <;> decide

/-- **C5 (amended)**: on the lookup path the domain is normalized only by
lower-casing and dropping everything from the first `:` (the port); it is not
trimmed and may be empty, and every GET request whose path matches the
9-character code pattern reaches the lookup with exactly that domain.  The
trim-and-reject-empty validation applies only on the allocation path, where
`handleNewURL` lower-cases and trims the domain and rejects the request iff
the normalized domain (or the url) is empty. -/
theorem c5_domain_validation_amended :
    (∀ (method path host : String) (d c : String),
      redirectLookupArgs method path host = some (d, c) →
      d = hostToDomain host ∧ method = "GET" ∧
        matchesShortCodePattern path = true ∧ c = pathCode path)
    ∧ (∀ (path host : String), matchesShortCodePattern path = true →
      redirectLookupArgs "GET" path host = some (hostToDomain host, pathCode path))
    ∧ (∀ (domain url d u : String), newURLValidate domain url = some (d, u) →
      d = normalizeDomain domain ∧ d ≠ "" ∧ u = url ∧ url ≠ "")
    ∧ (∀ (domain url : String),
      newURLValidate domain url = none ↔ (normalizeDomain domain = "" ∨ url = "")) := by
  refine ⟨?_, ?_, ?_, ?_⟩
  · intro method path host d c h
    simp only [redirectLookupArgs] at h
    split at h
    · exact Option.noConfusion h
    · split at h
      · exact Option.noConfusion h
      · rename_i hm hp
        simp only [Option.some.injEq, Prod.mk.injEq] at h
        obtain ⟨rfl, rfl⟩ := h
        exact ⟨rfl, by simpa using hm, by simpa using hp, rfl⟩
  · intro path host hp
    simp [redirectLookupArgs, hp]
  · intro domain url d u h
    simp only [newURLValidate] at h
    split at h
    · exact Option.noConfusion h
    · rename_i hcond
      simp only [Option.some.injEq, Prod.mk.injEq] at h
      obtain ⟨rfl, rfl⟩ := h
      simp only [Bool.or_eq_true, decide_eq_true_eq, not_or] at hcond
      exact ⟨rfl, hcond.1, rfl, hcond.2⟩
  · intro domain url
    simp only [newURLValidate]
    split
    · rename_i hcond
      exact iff_of_true rfl (by simpa using hcond)
    · rename_i hcond
      exact iff_of_false (by simp) (by simpa using hcond)

/-- Witness for C5 (amended): Host `"X.COM:8080"` reaches the lookup as
`("x.com", "abcdefghi")`; allocation input `" D "` normalizes to `"d"`. -/
theorem c5_domain_validation_amended_witness :
    (" x" = hostToDomain " X:8080" ∧ "GET" = "GET" ∧
      matchesShortCodePattern "/abcdefghi" = true ∧ "abcdefghi" = pathCode "/abcdefghi")
    ∧ ("d" = normalizeDomain " D " ∧ "d" ≠ "" ∧ "u" = "u" ∧ "u" ≠ "") :=
  ⟨c5_domain_validation_amended.1 "GET" "/abcdefghi" " X:8080" " x" "abcdefghi" (by decide),
   c5_domain_validation_amended.2.2.1 " D " "u" "d" "u" (by decide)⟩

/-- **C1**: Round-trip: for a valid `(domain, url)` input, if `saveURLMapping`
succeeds with code `c`, an immediately following `getOriginalURL domain c`
returns exactly `url`, in memory mode and in database mode (the latter for any
cache configuration whose prior contents agree with the table at the one
relevant key, and with the database reachable for the lookup). -/
theorem c1_round_trip :
    (∀ (d url : String) (codes : Nat → String) (m : MemStore) (c : String)
        (m' : MemStore) (n : Nat),
      normalizeDomain d ≠ "" → url ≠ "" →
      saveURLMappingMem d url codes m = (.ok c, m', n) →
      (getOriginalURLMem m' d c).1 = .ok url)
    ∧ (∀ (d url : String) (codes : Nat → String) (faults : Nat → Option String)
        (ce sf gf sf2 : Bool) (db : DB) (cache : Cache) (c : String) (db' : DB)
        (cache' : Cache) (n : Nat),
      normalizeDomain d ≠ "" → url ≠ "" →
      (∀ v, cacheLookup cache (cacheKey d c) = some v → dbGet db d c = some v) →
      saveURLMappingDB d url codes faults ce sf db cache = (.ok c, db', cache', n) →
      (getOriginalURLDB ce gf sf2 none db' cache' d c).1 = .ok url) := by
  constructor
  · intro d url codes m c m' n _ _ h
    obtain ⟨-, hm', -⟩ := saveMemLoop_ok 5 0 m h
    simp [getOriginalURLMem, hm']
  · intro d url codes faults ce sf gf sf2 db cache c db' cache' n _ _ hcons h
    obtain ⟨hno, hdb', hcache', -⟩ := saveDBLoop_ok 5 0 h
    have hdbget : dbGet db' d c = some url := by
      rw [hdb']; exact dbGet_append_self hno
    have hget : ∀ v, cacheLookup cache' (cacheKey d c) = some v → v = url := by
      intro v hv
      by_cases hcs : (ce && !sf) = true
      · rw [hcache', if_pos hcs, cacheLookup_set_self] at hv
        exact (Option.some_injective _ hv).symm
      · rw [hcache', if_neg hcs] at hv
        have hcontra := hcons v hv
        rw [dbHas_false_dbGet_none hno] at hcontra
        exact Option.noConfusion hcontra
    exact getOriginalURLDB_hit_or_store ce gf sf2 db' cache' d c url hget hdbget

/-- Witness for C1: a concrete save in each mode followed by the lookup
returning the original url. -/
theorem c1_round_trip_witness :
    (getOriginalURLMem [("d:abcdefghi", "u")] "d" "abcdefghi").1 = .ok "u"
    ∧ (getOriginalURLDB true false false none [("d", "abcdefghi", "u")]
        [("short:d:abcdefghi", "u")] "d" "abcdefghi").1 = .ok "u" :=
  ⟨c1_round_trip.1 "d" "u" (fun _ => "abcdefghi") [] "abcdefghi"
      [("d:abcdefghi", "u")] 1 (by decide) (by decide) rfl,
   c1_round_trip.2 "d" "u" (fun _ => "abcdefghi") (fun _ => none) true false false
      false [] [] "abcdefghi" [("d", "abcdefghi", "u")] [("short:d:abcdefghi", "u")] 1
      (by decide) (by decide) (fun v hv => by simp [cacheLookup] at hv) rfl⟩

/-- **C3**: In database mode, if the first `k` insert attempts collide
(duplicate key 1062) and attempt `k` fails with any non-duplicate error `e`,
`saveURLMapping` returns `e` at once: exactly `k + 1` attempts (code
generations and inserts) are performed and neither the table nor the cache is
touched, regardless of the remaining attempts. -/
theorem c3_non_collision_failure_aborts (d url : String) (codes : Nat → String)
    (faults : Nat → Option String) (ce sf : Bool) (db : DB) (cache : Cache)
    (k : Nat) (e : String) (hk : k < 5)
    (hpre : ∀ j, j < k → faults j = none ∧ dbHas db d (codes j) = true)
    (hf : faults k = some e) :
    saveURLMappingDB d url codes faults ce sf db cache =
      (.error (.dbFailure e), db, cache, k + 1) := by
  unfold saveURLMappingDB
  exact saveDBLoop_fault k 5 0 hk
    (fun j hj => by simpa using hpre j hj) (by simpa using hf)

/-- Witness for C3: attempt 0 collides, attempt 1 hits a connectivity error;
the save returns the error after exactly 2 attempts with the table and cache
unchanged. -/
theorem c3_non_collision_failure_aborts_witness :
    saveURLMappingDB "d" "u" (fun _ => "aaaaaaaaa")
      (fun i => if i = 1 then some "conn" else none) true false
      [("d", "aaaaaaaaa", "u0")] [] =
      (.error (.dbFailure "conn"), [("d", "aaaaaaaaa", "u0")], [], 2) :=
  c3_non_collision_failure_aborts "d" "u" (fun _ => "aaaaaaaaa")
    (fun i => if i = 1 then some "conn" else none) true false
    [("d", "aaaaaaaaa", "u0")] [] 1 "conn" (by omega)
    (fun j hj => by
      have hj0 : j = 0 := by omega
      subst hj0
      exact ⟨rfl, by decide⟩)
    rfl

/-- **C6**: `saveURLMapping` performs at most 5 attempts in either mode, and
when all 5 candidate codes collide (key present in the in-memory map, or
duplicate `(domain, code)` in the table with no other failure) it returns the
exhausted-retries error, leaving the store unchanged, after exactly 5
attempts. -/
theorem c6_bounded_retries :
    (∀ (d url : String) (codes : Nat → String) (m : MemStore),
      (saveURLMappingMem d url codes m).2.2 ≤ 5)
    ∧ (∀ (d url : String) (codes : Nat → String) (faults : Nat → Option String)
        (ce sf : Bool) (db : DB) (cache : Cache),
      (saveURLMappingDB d url codes faults ce sf db cache).2.2.2 ≤ 5)
    ∧ (∀ (d url : String) (codes : Nat → String) (m : MemStore),
      (∀ j, j < 5 → (m.lookup (memKey d (codes j))).isSome = true) →
      saveURLMappingMem d url codes m = (.error .memExhausted, m, 5))
    ∧ (∀ (d url : String) (codes : Nat → String) (faults : Nat → Option String)
        (ce sf : Bool) (db : DB) (cache : Cache),
      (∀ j, j < 5 → faults j = none ∧ dbHas db d (codes j) = true) →
      saveURLMappingDB d url codes faults ce sf db cache =
        (.error .dbExhausted, db, cache, 5)) := by
  refine ⟨?_, ?_, ?_, ?_⟩
  · intro d url codes m
    exact saveMemLoop_count_le 5 0 m
  · intro d url codes faults ce sf db cache
    exact saveDBLoop_count_le 5 0
  · intro d url codes m hall
    exact saveMemLoop_allCollide 5 0 m (fun j hj => by simpa using hall j hj)
  · intro d url codes faults ce sf db cache hall
    exact saveDBLoop_allCollide 5 0 (fun j hj => by simpa using hall j hj)

/-- Witness for C6: with every candidate equal to an already-present code,
both modes return the exhausted error after exactly 5 attempts. -/
theorem c6_bounded_retries_witness :
    saveURLMappingMem "d" "u" (fun _ => "aaaaaaaaa") [("d:aaaaaaaaa", "u0")] =
      (.error .memExhausted, [("d:aaaaaaaaa", "u0")], 5)
    ∧ saveURLMappingDB "d" "u" (fun _ => "aaaaaaaaa") (fun _ => none) true false
        [("d", "aaaaaaaaa", "u0")] [] =
        (.error .dbExhausted, [("d", "aaaaaaaaa", "u0")], [], 5) :=
  ⟨c6_bounded_retries.2.2.1 "d" "u" (fun _ => "aaaaaaaaa") [("d:aaaaaaaaa", "u0")]
      (fun j hj => by
        show (List.lookup (memKey "d" "aaaaaaaaa") [("d:aaaaaaaaa", "u0")]).isSome = true
        decide),
   c6_bounded_retries.2.2.2 "d" "u" (fun _ => "aaaaaaaaa") (fun _ => none) true false
      [("d", "aaaaaaaaa", "u0")] []
      (fun j hj => ⟨rfl, by
        show dbHas [("d", "aaaaaaaaa", "u0")] "d" "aaaaaaaaa" = true
        decide⟩)⟩

/-- **C4**: Cache failures never affect results: the result, table, and
attempt count of a database-mode save do not depend on the cache configuration
at all; a save with an always-failing cache equals a save with no cache
configured, state included; and a lookup with an always-failing cache (every
Get and Set erroring) equals a lookup with no cache configured. -/
theorem c4_cache_failures_transparent :
    (∀ (d url : String) (codes : Nat → String) (faults : Nat → Option String)
        (ce sf : Bool) (db : DB) (cache : Cache),
      (saveURLMappingDB d url codes faults ce sf db cache).1 =
        (saveURLMappingDB d url codes faults false false db cache).1
      ∧ (saveURLMappingDB d url codes faults ce sf db cache).2.1 =
        (saveURLMappingDB d url codes faults false false db cache).2.1
      ∧ (saveURLMappingDB d url codes faults ce sf db cache).2.2.2 =
        (saveURLMappingDB d url codes faults false false db cache).2.2.2)
    ∧ (∀ (d url : String) (codes : Nat → String) (faults : Nat → Option String)
        (sf2 : Bool) (db : DB) (cache : Cache),
      saveURLMappingDB d url codes faults true true db cache =
        saveURLMappingDB d url codes faults false sf2 db cache)
    ∧ (∀ (f : Option String) (db : DB) (cache : Cache) (d c : String),
      getOriginalURLDB true true true f db cache d c =
        getOriginalURLDB false false false f db cache d c) := by
  refine ⟨?_, ?_, ?_⟩
  · intro d url codes faults ce sf db cache
    exact saveDBLoop_cacheIndep 5 0 ce sf false false
  · intro d url codes faults sf2 db cache
    exact saveDBLoop_failingCache 5 0 sf2
  · intro f db cache d c
    simp [getOriginalURLDB]

/-- **C7**: Domain scoping: a stored mapping `(d1, c) ↦ url` does not make `c`
resolve under a different domain `d2`: when no mapping `(d2, c)` exists (and,
in database mode, the cache holds nothing for that key and the store is
reachable), `getOriginalURL d2 c` returns `NotFound` (`sql.ErrNoRows`) and
never `url`. -/
theorem c7_domain_scoping :
    (∀ (m : MemStore) (d1 d2 c url : String),
      m.lookup (memKey d1 c) = some url → d2 ≠ d1 →
      m.lookup (memKey d2 c) = none →
      (getOriginalURLMem m d2 c).1 = .error .noRows)
    ∧ (∀ (ce gf sf : Bool) (db : DB) (cache : Cache) (d1 d2 c url : String),
      dbGet db d1 c = some url → d2 ≠ d1 →
      dbGet db d2 c = none → cacheLookup cache (cacheKey d2 c) = none →
      getOriginalURLDB ce gf sf none db cache d2 c = (.error .noRows, db, cache)) := by
  constructor
  · intro m d1 d2 c url _ _ hnone
    simp [getOriginalURLMem, hnone]
  · intro ce gf sf db cache d1 d2 c url _ _ hdb hcache
    exact getOriginalURLDB_miss ce gf sf db cache d2 c hcache hdb

/-- Witness for C7: `"abcdefghi"` stored under `"d1"` does not resolve under
`"d2"` in either mode. -/
theorem c7_domain_scoping_witness :
    (getOriginalURLMem [("d1:abcdefghi", "u")] "d2" "abcdefghi").1 = .error .noRows
    ∧ getOriginalURLDB true false false none [("d1", "abcdefghi", "u")] []
        "d2" "abcdefghi" = (.error .noRows, [("d1", "abcdefghi", "u")], []) :=
  ⟨c7_domain_scoping.1 [("d1:abcdefghi", "u")] "d1" "d2" "abcdefghi" "u"
      (by decide) (by decide) (by decide),
   c7_domain_scoping.2 true false false [("d1", "abcdefghi", "u")] []
      "d1" "d2" "abcdefghi" "u" (by decide) (by decide) (by decide) rfl⟩

/-- **C9**: Immutability: a save preserves every mapping already present (in
either mode), a lookup never modifies the store (memory map or table), and
allocation only ever inserts a `(domain, code)` pair that was absent. -/
theorem c9_immutability :
    (∀ (d url : String) (codes : Nat → String) (m : MemStore) (k v : String),
      m.lookup k = some v →
      (saveURLMappingMem d url codes m).2.1.lookup k = some v)
    ∧ (∀ (d url : String) (codes : Nat → String) (faults : Nat → Option String)
        (ce sf : Bool) (db : DB) (cache : Cache) (d0 c0 v : String),
      dbGet db d0 c0 = some v →
      dbGet (saveURLMappingDB d url codes faults ce sf db cache).2.1 d0 c0 = some v)
    ∧ (∀ (m : MemStore) (d c : String), (getOriginalURLMem m d c).2 = m)
    ∧ (∀ (ce gf sf : Bool) (f : Option String) (db : DB) (cache : Cache)
        (d c : String), (getOriginalURLDB ce gf sf f db cache d c).2.1 = db)
    ∧ (∀ (d url : String) (codes : Nat → String) (m : MemStore) (c : String)
        (m' : MemStore) (n : Nat),
      saveURLMappingMem d url codes m = (.ok c, m', n) →
      m.lookup (memKey d c) = none)
    ∧ (∀ (d url : String) (codes : Nat → String) (faults : Nat → Option String)
        (ce sf : Bool) (db : DB) (cache : Cache) (c : String) (db' : DB)
        (cache' : Cache) (n : Nat),
      saveURLMappingDB d url codes faults ce sf db cache = (.ok c, db', cache', n) →
      dbHas db d c = false) := by
  refine ⟨?_, ?_, ?_, ?_, ?_, ?_⟩
  · intro d url codes m k v hk
    exact saveMemLoop_preserve 5 0 m k v hk
  · intro d url codes faults ce sf db cache d0 c0 v hv
    rcases hr : saveURLMappingDB d url codes faults ce sf db cache
      with ⟨res, db', cache', n⟩
    cases res with
    | error e =>
      obtain ⟨hdb, -⟩ := saveDBLoop_error 5 0 hr
      show dbGet db' d0 c0 = some v
      rw [hdb]
      exact hv
    | ok c =>
      obtain ⟨-, hdb, -, -⟩ := saveDBLoop_ok 5 0 hr
      show dbGet db' d0 c0 = some v
      rw [hdb]
      exact dbGet_append_mono hv
  · intro m d c
    unfold getOriginalURLMem
    split <;> rfl
  · intro ce gf sf f db cache d c
    exact getOriginalURLDB_db_unchanged ce gf sf f db cache d c
  · intro d url codes m c m' n h
    exact (saveMemLoop_ok 5 0 m h).1
  · intro d url codes faults ce sf db cache c db' cache' n h
    exact (saveDBLoop_ok 5 0 h).1

/-- Witness for C9: a pre-existing entry survives a save in each mode, and a
successful save in each mode started from the empty store inserted an absent
pair. -/
theorem c9_immutability_witness :
    (saveURLMappingMem "d" "u" (fun _ => "abcdefghi") [("k", "v")]).2.1.lookup "k" =
      some "v"
    ∧ dbGet (saveURLMappingDB "d" "u" (fun _ => "abcdefghi") (fun _ => none) true
        false [("d0", "ccccccccc", "v0")] []).2.1 "d0" "ccccccccc" = some "v0"
    ∧ List.lookup (memKey "d" "abcdefghi") ([] : MemStore) = none
    ∧ dbHas [] "d" "abcdefghi" = false :=
  ⟨c9_immutability.1 "d" "u" (fun _ => "abcdefghi") [("k", "v")] "k" "v" (by decide),
   c9_immutability.2.1 "d" "u" (fun _ => "abcdefghi") (fun _ => none) true false
      [("d0", "ccccccccc", "v0")] [] "d0" "ccccccccc" "v0" (by decide),
   c9_immutability.2.2.2.2.1 "d" "u" (fun _ => "abcdefghi") [] "abcdefghi"
      [("d:abcdefghi", "u")] 1 rfl,
   c9_immutability.2.2.2.2.2 "d" "u" (fun _ => "abcdefghi") (fun _ => none) true
      false [] [] "abcdefghi" [("d", "abcdefghi", "u")] [("short:d:abcdefghi", "u")]
      1 rfl⟩

/-- **C10**: Failed allocations are atomic: whenever `saveURLMapping` returns
an error (exhausted retries in either mode, or a propagated store failure),
the store it used — the in-memory map or the table (and, in database mode,
also the cache) — is exactly what it was before the call. -/
theorem c10_failure_atomic :
    (∀ (d url : String) (codes : Nat → String) (m : MemStore) (e : SaveError)
        (m' : MemStore) (n : Nat),
      saveURLMappingMem d url codes m = (.error e, m', n) → m' = m)
    ∧ (∀ (d url : String) (codes : Nat → String) (faults : Nat → Option String)
        (ce sf : Bool) (db : DB) (cache : Cache) (e : SaveError) (db' : DB)
        (cache' : Cache) (n : Nat),
      saveURLMappingDB d url codes faults ce sf db cache = (.error e, db', cache', n) →
      db' = db ∧ cache' = cache) := by
  constructor
  · intro d url codes m e m' n h
    exact saveMemLoop_error 5 0 m h
  · intro d url codes faults ce sf db cache e db' cache' n h
    exact saveDBLoop_error 5 0 h

/-- Witness for C10: exhausted saves in both modes leave the stores exactly as
they were. -/
theorem c10_failure_atomic_witness :
    ([("d:aaaaaaaaa", "u0")] : MemStore) = [("d:aaaaaaaaa", "u0")]
    ∧ (([("d", "aaaaaaaaa", "u0")] : DB) = [("d", "aaaaaaaaa", "u0")]
        ∧ ([] : Cache) = []) :=
  ⟨c10_failure_atomic.1 "d" "u" (fun _ => "aaaaaaaaa") [("d:aaaaaaaaa", "u0")]
      .memExhausted [("d:aaaaaaaaa", "u0")] 5 rfl,
   c10_failure_atomic.2 "d" "u" (fun _ => "aaaaaaaaa") (fun _ => none) true false
      [("d", "aaaaaaaaa", "u0")] [] .dbExhausted [("d", "aaaaaaaaa", "u0")] [] 5 rfl⟩

end URLShortener
